import Mathlib

/-!
# Shallow embedding of the SPTP client orchestrator (ptp/sptp/client/sptp.go)

This file models the orchestration logic of the SPTP unicast PTP client:
per-tick fan-out, result aggregation, backoff bookkeeping, BMCA invocation,
servo sampling and clock-discipline dispatch, inbound packet routing, and the
main loop with its shutdown path.

Modelling conventions:
* Stateful Go code is embedded as pure functions returning a new state plus an
  explicit trace of observable effects (`Effect`).  Calls into collaborators
  whose code lives outside this file (servo, backoff internals, BMCA, the
  per-peer exchange `RunOnce`, the stats sink, clock syscalls) are recorded as
  effects, with their return values supplied by oracles in `Env`.
* `time.Time` / `time.Duration` values are modelled as `Int` (nanoseconds);
  the zero `time.Time` (`IsZero`) is modelled as `Option.none`.
* `float64` frequency values flow through this file only via negation and
  pass-through, so they are modelled as `Int`.
* Go maps under iteration are modelled as association lists; Go map
  assignment `m[k] = v` is `mapSet` (replace if present, else append).
* `log.Debugf` / `log.Infof` lines, which carry purely diagnostic text, are
  elided from the trace; `log.Warningf` / `log.Errorf` lines are kept since
  the specification talks about warnings and error logging.
-/

namespace SPTP

/-- 8-byte PTP clock identity (`ptp.ClockIdentity`, a uint64). -/
abbrev ClockIdentity := Nat

/-- The part of `ptp.Announce` used by this file: the grandmaster identity is
read directly; the remaining comparison attributes are consumed only by the
BMCA oracle and are collapsed into an opaque `dataset` field. -/
structure Announce where
  grandmasterIdentity : ClockIdentity
  dataset : Nat
deriving DecidableEq, Repr

/-- `Measurement`: offset, path delay and sample timestamp in nanoseconds,
plus the peer's announce dataset. -/
structure Measurement where
  announce : Announce
  offset : Int
  delay : Int
  timestamp : Int
deriving DecidableEq, Repr

/-- Go errors as seen by this file: the sentinel `errBackoff` is compared
with `errors.Is`; every other error is opaque. -/
inductive GoErr where
  | errBackoff
  | other (msg : String)
deriving DecidableEq, Repr

/-- `RunResult`: one peer's outcome for one tick. -/
structure RunResult where
  server : String
  error : Option GoErr
  measurement : Option Measurement
deriving DecidableEq, Repr

/-- The servo states of `servo.State` dispatched on in `processResults`. -/
inductive ServoState where
  | init
  | jump
  | locked
  | filter
deriving DecidableEq, Repr

/-- Which concrete `Clock` implementation `p.clock` holds
(`SysClock` / PHC device / `FreeRunningClock`). -/
inductive ClockKind where
  | sys
  | phc
  | freeRunning
deriving DecidableEq, Repr

/-- A packet as enqueued on a client's `inChan`: payload bytes plus, for the
event port, the receive timestamp. -/
structure InPacket where
  data : List Nat
  ts : Option Int
deriving DecidableEq, Repr

/-- Observable effects of the orchestrator, in program order. -/
inductive Effect where
  /-- `p.stats.SetGMStats(runResultToStats(addr, ...))`; the stats payload is
  computed by `runResultToStats` (outside this file) and is elided. -/
  | setGMStats (addr : String)
  /-- `p.backoff[addr].reset()` -/
  | backoffReset (addr : String)
  /-- `p.backoff[addr].tick()` -/
  | backoffTick (addr : String)
  /-- `p.backoff[addr].bump()` -/
  | backoffBump (addr : String)
  /-- `p.stats.SetCounter(name, value)` -/
  | setCounter (name : String) (value : Int)
  /-- `log.Warningf(msg, ...)`; `msg` is the format string -/
  | logWarn (msg : String)
  /-- `log.Errorf(msg, ...)`; `msg` is the format string -/
  | logError (msg : String)
  /-- `p.pi.Sample(offset, ts)` -/
  | servoSample (offset : Int) (ts : Int)
  /-- `p.pi.SyncInterval(seconds)` -/
  | syncInterval (interval : Int)
  /-- `p.clock.Step(v)` -/
  | clockStep (v : Int)
  /-- `p.clock.AdjFreqPPB(v)` -/
  | clockAdjFreq (v : Int)
  /-- `sysClk.SetSync()` -/
  | setSync
  /-- `time.NewTimer(d)` / `timer.Reset(d)` -/
  | armTimer (d : Int)
  /-- the call `bmca(announces, localPrioMap)` with its two arguments -/
  | bmcaCall (announces : List Announce) (prioMap : List (ClockIdentity × Int))
  /-- delivery of a packet to `p.clients[addr].inChan` -/
  | enqueue (addr : String) (pkt : InPacket)
  /-- a nil-pointer dereference (unreachable on well-formed data) -/
  | nilDeref
deriving DecidableEq, Repr

/-- Mutable orchestrator state touched by `processResults`. -/
structure SPTPState where
  bestGM : String
  lastTick : Option Int
deriving DecidableEq, Repr

/-- Zero value of the `SPTP` struct fields used by the loop:
`bestGM` is the empty string until a winner has been selected and
`lastTick` is the zero `time.Time`. -/
def initialState : SPTPState := { bestGM := "", lastTick := none }

/-- Environment: configuration plus oracles for every collaborator whose code
lives outside this file. -/
structure Env where
  /-- `p.cfg.Interval` (ns) -/
  interval : Int
  /-- `p.cfg.ExchangeTimeout` (ns) -/
  exchangeTimeout : Int
  /-- `p.priorities` (built from `p.cfg.Servers` at init) -/
  priorities : String → Int
  /-- the `bmca` function (defined elsewhere in the client package) -/
  bmca : List Announce → List (ClockIdentity × Int) → Option Announce
  /-- the servo oracle for `p.pi.Sample`: returns `(freqAdj, state)` -/
  sampleServo : Int → Int → Int × ServoState
  /-- `p.pi.MeanFreq()` -/
  meanFreq : Int
  /-- outcome oracle for `p.clock.Step`: `some msg` means failure -/
  stepErr : Int → Option String
  /-- outcome oracle for `p.clock.AdjFreqPPB`: `some msg` means failure -/
  adjErr : Int → Option String
  /-- outcome oracle for `sysClk.SetSync` -/
  setSyncErr : Option String
  /-- which concrete `Clock` implementation `p.clock` holds -/
  clockKind : ClockKind
  /-- value returned by `p.backoff[addr].bump()` -/
  bumpRet : String → Int
  /-- value returned by `p.backoff[addr].tick()` -/
  tickRet : String → Int

/-- Go map assignment `m[k] = v` on an association list: replace the value if
the key is present, append otherwise. -/
def mapSet {α : Type} (m : List (ClockIdentity × α)) (k : ClockIdentity) (v : α) :
    List (ClockIdentity × α) :=
  if (m.lookup k).isSome then
    m.map (fun p => if p.1 = k then (k, v) else p)
  else
    m ++ [(k, v)]

/-- Format string of `log.Errorf` for a failed exchange result. -/
def resultErrMsg : String := "result %s: %+v"

/-- Format string of `log.Warningf` for an extended backoff. -/
def backoffExtendedMsg : String := "backoff %s: extended by %d"

/-- Format string of `log.Errorf` for a result missing its measurement. -/
def missingMeasurementMsg : String := "result for %s is missing Measurement"

/-- Format string of `log.Warningf` when BMCA selects nobody. -/
def noBestMasterMsg : String := "no Best Master selected"

/-- Format string of `log.Warningf` on a leader change. -/
def newBestMasterMsg : String := "new best master selected: %q (%s)"

/-- Format string of `log.Errorf` for a failed clock step. -/
def stepFailMsg : String := "failed to step freq by %v: %v"

/-- Format string of `log.Errorf` for a failed frequency adjustment. -/
def adjFailMsg : String := "failed to adjust freq to %v: %v"

/-- Format string of `log.Errorf` for a failed `SetSync`. -/
def syncFailMsg : String := "failed to set sys clock sync state"

/-- Format string of `log.Warningf` for a datagram from an unknown source. -/
def ignoringPacketsMsg : String := "ignoring packets from server %v"

/-- `SPTP.handleExchangeError`: sentinel backoff error ticks the suppression
timer; any other error is logged and bumps (extends) the suppression, with a
warning when the bump reports a nonzero extension. -/
def handleExchangeError (env : Env) (addr : String) (e : GoErr) : List Effect :=
  if e = GoErr.errBackoff then
    [Effect.backoffTick addr]
  else
    [Effect.logError resultErrMsg, Effect.backoffBump addr] ++
      (if env.bumpRet addr ≠ 0 then [Effect.logWarn backoffExtendedMsg] else [])

/-- Accumulator of the aggregation loop in `SPTP.processResults`. -/
structure AggState where
  gmsAvailable : Nat
  announces : List Announce
  idsToClients : List (ClockIdentity × String)
  localPrioMap : List (ClockIdentity × Int)
deriving DecidableEq, Repr

/-- Initial accumulator (`gmsAvailable := 0`, empty slices/maps). -/
def AggState.start : AggState :=
  { gmsAvailable := 0, announces := [], idsToClients := [], localPrioMap := [] }

/-- One iteration of the aggregation loop body in `SPTP.processResults`:
publish per-peer stats; on success reset backoff, otherwise handle the error
and continue; skip results missing a measurement; collect the announce,
the identity-to-address mapping and the local priority of usable results. -/
def aggStep (env : Env) (acc : AggState × List Effect) (pr : String × RunResult) :
    AggState × List Effect :=
  let st := acc.1
  let fx := acc.2
  let addr := pr.1
  let res := pr.2
  let fx := fx ++ [Effect.setGMStats addr]
  match res.error with
  | some e => (st, fx ++ handleExchangeError env addr e)
  | none =>
    let fx := fx ++ [Effect.backoffReset addr]
    match res.measurement with
    | none => (st, fx ++ [Effect.logError missingMeasurementMsg])
    | some m =>
      ({ gmsAvailable := st.gmsAvailable + 1,
         announces := st.announces ++ [m.announce],
         idsToClients := mapSet st.idsToClients m.announce.grandmasterIdentity addr,
         localPrioMap := mapSet st.localPrioMap m.announce.grandmasterIdentity
           (env.priorities addr) }, fx)

/-- The aggregation loop of `SPTP.processResults` over the tick's result map
(modelled as an association list in iteration order). -/
def aggregateResults (env : Env) (results : List (String × RunResult)) :
    AggState × List Effect :=
  results.foldl (aggStep env) (AggState.start, [])

/-- Format string of the tick-deviation warning. -/
def tickDeviationMsg : String :=
  "tick took %vms, which is outside of expected +-10%% from the interval %vms"

/-- Name of the tick-duration counter. -/
def tickDurationCounter : String := "ptp.sptp.tick_duration_ns"

/-- Tick-duration bookkeeping at the top of `SPTP.processResults`: skipped
entirely when `p.lastTick` is the zero time; otherwise warns when the
duration deviates from the interval by more than 10% and publishes the
duration counter. -/
def tickStatsFx (env : Env) (lastTick : Option Int) (now : Int) : List Effect :=
  match lastTick with
  | none => []
  | some lt =>
    let d := now - lt
    (if 100 * d > 110 * env.interval ∨ 100 * d < 90 * env.interval then
      [Effect.logWarn tickDeviationMsg]
    else []) ++ [Effect.setCounter tickDurationCounter d]

/-- Fuel-driven floor-log2 (structural recursion so it evaluates by `decide`). -/
def log2fuel : Nat → Nat → Nat
  | 0, _ => 0
  | fuel + 1, n => if n ≤ 1 then 0 else log2fuel fuel (n / 2) + 1

/-- Floor of the base-2 logarithm of a positive natural number. -/
def natLog2 (n : Nat) : Nat := log2fuel n n

/-- Round the nonnegative rational `N / D` to the nearest binary64 value
(53 significant bits, round-to-nearest with ties to even), returned as a
dyadic `(mantissa, exponent)` pair meaning `mantissa * 2 ^ exponent`.
The exponent range is unbounded: overflow to infinity and subnormal underflow
cannot be reached by the percentage computation this models (both operands
are list counts, the quotient lies in `[0, 100]`). -/
def roundMantissa (N D : Nat) : Nat × Int :=
  if N = 0 then (0, 0) else
    let s0 : Int := 52 - ((natLog2 N : Int) - (natLog2 D : Int))
    let N0 : Nat := if 0 ≤ s0 then N <<< s0.toNat else N
    let D0 : Nat := if 0 ≤ s0 then D else D <<< (-s0).toNat
    let s : Int :=
      if N0 < 2 ^ 52 * D0 then s0 + 1
      else if 2 ^ 53 * D0 ≤ N0 then s0 - 1
      else s0
    let N1 : Nat := if 0 ≤ s then N <<< s.toNat else N
    let D1 : Nat := if 0 ≤ s then D else D <<< (-s).toNat
    let m0 : Nat := N1 / D1
    let r : Nat := N1 % D1
    let m : Nat :=
      if D1 < 2 * r then m0 + 1
      else if 2 * r < D1 then m0
      else if m0 % 2 = 0 then m0 else m0 + 1
    (m, -s)

/-- `int64((float64(gmsAvailable) / float64(gmsTotal)) * 100)` with IEEE-754
binary64 semantics: each conversion, the division and the multiplication by
100 are rounded to nearest-even, then the nonnegative result is truncated.
Never invoked with `t = 0` (the caller publishes a literal 0 instead, as the
source does).  E.g. `goAvailablePct 29 50 = 57` although `100 * 29 / 50 = 58`:
the double nearest to `29 / 50` lies below it and `* 100` re-rounds to
`57.99999999999999289…`. -/
def goAvailablePct (a t : Nat) : Int :=
  let fa := roundMantissa a 1
  let ft := roundMantissa t 1
  let fq := roundMantissa fa.1 ft.1
  let qe : Int := fq.2 + fa.2 - ft.2
  let fp := roundMantissa (fq.1 * 100) 1
  let pe : Int := fp.2 + qe
  if 0 ≤ pe then ((fp.1 <<< pe.toNat : Nat) : Int) else ((fp.1 >>> (-pe).toNat : Nat) : Int)

/-- The two availability counters published after aggregation:
`total` is the size of the result map; `available_pct` is the source's
`int64((float64(gmsAvailable)/float64(gmsTotal))*100)` modelled with exact
binary64 rounding by `goAvailablePct`, and 0 when the total is 0. -/
def gmCountersFx (gmsTotal : Nat) (gmsAvailable : Nat) : List Effect :=
  [Effect.setCounter "ptp.sptp.gms.total" (gmsTotal : Int),
   if gmsTotal ≠ 0 then
     Effect.setCounter "ptp.sptp.gms.available_pct" (goAvailablePct gmsAvailable gmsTotal)
   else
     Effect.setCounter "ptp.sptp.gms.available_pct" 0]

/-- The clock-discipline dispatch at the end of `SPTP.processResults`:
`StateJump` steps the clock by the negated offset, `StateLocked` applies the
negated frequency correction and, on the system clock only, marks it
synchronized; adjustment failures are logged and swallowed. -/
def disciplineFx (env : Env) (freqAdj : Int) (state : ServoState) (offset : Int) :
    List Effect :=
  match state with
  | ServoState.jump =>
    Effect.clockStep (-offset) ::
      (match env.stepErr (-offset) with
       | some _ => [Effect.logError stepFailMsg]
       | none => [])
  | ServoState.locked =>
    (Effect.clockAdjFreq (-freqAdj) ::
      (match env.adjErr (-freqAdj) with
       | some _ => [Effect.logError adjFailMsg]
       | none => [])) ++
    (if env.clockKind = ClockKind.sys then
      Effect.setSync ::
        (match env.setSyncErr with
         | some _ => [Effect.logError syncFailMsg]
         | none => [])
     else [])
  | _ => []

/-- The tail of `SPTP.processResults` after the counters: run BMCA; with no
winner, warn and clear `bestGM`; otherwise resolve the winner's address and
measurement, record a leader change, sample the servo and dispatch on the
returned state. A nil dereference (winner address or measurement missing
from the maps that the loop just built) is recorded as `nilDeref`. -/
def selectAndDiscipline (env : Env) (st : SPTPState)
    (results : List (String × RunResult)) (agg : AggState) :
    SPTPState × List Effect :=
  let callFx := [Effect.bmcaCall agg.announces agg.localPrioMap]
  match env.bmca agg.announces agg.localPrioMap with
  | none => ({ st with bestGM := "" }, callFx ++ [Effect.logWarn noBestMasterMsg])
  | some best =>
    match agg.idsToClients.lookup best.grandmasterIdentity with
    | none => (st, callFx ++ [Effect.nilDeref])
    | some bestAddr =>
      match results.lookup bestAddr with
      | none => (st, callFx ++ [Effect.nilDeref])
      | some rr =>
        match rr.measurement with
        | none => (st, callFx ++ [Effect.nilDeref])
        | some bm =>
          let gmFx := if st.bestGM ≠ bestAddr then
              [Effect.logWarn newBestMasterMsg] else []
          let st := { st with bestGM := bestAddr }
          let sampled := env.sampleServo bm.offset bm.timestamp
          (st, callFx ++ gmFx ++ [Effect.servoSample bm.offset bm.timestamp] ++
            disciplineFx env sampled.1 sampled.2 bm.offset)

/-- `SPTP.processResults`: tick-duration stats, per-peer aggregation,
availability counters, BMCA and clock discipline. -/
def processResults (env : Env) (st : SPTPState) (now : Int)
    (results : List (String × RunResult)) : SPTPState × List Effect :=
  let tickFx := tickStatsFx env st.lastTick now
  let st := { st with lastTick := some now }
  let gmsTotal := results.length
  let agg := aggregateResults env results
  let ctrFx := gmCountersFx gmsTotal agg.1.gmsAvailable
  let tail := selectAndDiscipline env st results agg.1
  (tail.1, tickFx ++ agg.2 ++ ctrFx ++ tail.2)

/-- The `RunResult` synthesized for a backoff-suppressed peer in the tick
closure of `SPTP.runInternal`: the sentinel error, no network contact. -/
def backoffResult (addr : String) : RunResult :=
  { server := addr, error := some GoErr.errBackoff, measurement := none }

/-- The result map built by one tick of `SPTP.runInternal`: each suppressed
peer gets the synthesized backoff result; every other peer gets the outcome
of exactly one `RunOnce` exchange bounded by `p.cfg.ExchangeTimeout`.
`clients` lists the peer addresses in iteration order; `active` is the oracle
for `p.backoff[addr].active()`; `runOnce` is the oracle for
`c.RunOnce(ictx, timeout)` (the exchange tasks run concurrently and are
joined before aggregation, so the joined map is order-independent data). -/
def tickResults (env : Env) (clients : List String) (active : String → Bool)
    (runOnce : String → Int → RunResult) : List (String × RunResult) :=
  clients.map fun addr =>
    (addr, if active addr then backoffResult addr else runOnce addr env.exchangeTimeout)

/-- One full tick of `SPTP.runInternal`: fan out, join, process. -/
def tickOnce (env : Env) (clients : List String) (active : String → Bool)
    (runOnce : String → Int → RunResult) (st : SPTPState) (now : Int) :
    SPTPState × List Effect :=
  processResults env st now (tickResults env clients active runOnce)

/-- External events driving the main loop `select`: a timer expiry (carrying
the wall-clock time `time.Now()` observes inside `processResults`) or a
context cancellation. -/
inductive LoopEvent where
  | timerFire (now : Int)
  | cancel
deriving DecidableEq, Repr

/-- Shutdown path of `SPTP.runInternal` (the `ctx.Done()` branch): apply the
negated servo mean frequency once, logging (not propagating) a failure. -/
def shutdownFx (env : Env) : List Effect :=
  Effect.clockAdjFreq (-env.meanFreq) ::
    (match env.adjErr (-env.meanFreq) with
     | some _ => [Effect.logError adjFailMsg]
     | none => [])

/-- Terminal status of the loop over a finite event trace: `cancelled` models
returning `ctx.Err()`; `ranOut` means the modelled trace ended first. -/
inductive RunOutcome where
  | cancelled
  | ranOut
deriving DecidableEq, Repr

/-- The `for { select { ... } }` loop of `SPTP.runInternal`: a timer expiry
re-arms the timer with `p.cfg.Interval` and runs a tick; a cancellation runs
the shutdown path and returns the context's error. -/
def runLoop (env : Env) (clients : List String) (active : String → Bool)
    (runOnce : String → Int → RunResult) (st : SPTPState) :
    List LoopEvent → List Effect × RunOutcome
  | [] => ([], RunOutcome.ranOut)
  | LoopEvent.cancel :: _ => (shutdownFx env, RunOutcome.cancelled)
  | LoopEvent.timerFire now :: rest =>
    let t := tickOnce env clients active runOnce st now
    let r := runLoop env clients active runOnce t.1 rest
    (Effect.armTimer env.interval :: t.2 ++ r.1, r.2)

/-- `SPTP.runInternal`: set the servo sync interval, create the timer with a
zero duration (so the first tick fires immediately), then loop. -/
def runInternal (env : Env) (clients : List String) (active : String → Bool)
    (runOnce : String → Int → RunResult) (st : SPTPState)
    (events : List LoopEvent) : List Effect × RunOutcome :=
  let r := runLoop env clients active runOnce st events
  (Effect.syncInterval env.interval :: Effect.armTimer 0 :: r.1, r.2)

/-- An inbound datagram: normalized source IP string (the Go code compares
`addr.IP.String()` against the keys of `p.clients`, which were normalized
with `net.ParseIP(server).String()` at init) and payload bytes. -/
structure Datagram where
  src : String
  payload : List Nat
deriving DecidableEq, Repr

/-- General-port (320) receive-loop body of `SPTP.RunListener`: look the
source IP up in the client map; enqueue on the matching peer's channel
(without a timestamp), or warn and keep receiving. -/
def generalStep (clients : List String) (d : Datagram) : List Effect :=
  if d.src ∈ clients then
    [Effect.enqueue d.src { data := d.payload, ts := none }]
  else
    [Effect.logWarn ignoringPacketsMsg]

/-- Event-port (319) receive-loop body of `SPTP.RunListener`: identical
demultiplexing, but the packet is enqueued together with its RX timestamp. -/
def eventStep (clients : List String) (d : Datagram) (rxts : Int) : List Effect :=
  if d.src ∈ clients then
    [Effect.enqueue d.src { data := d.payload, ts := some rxts }]
  else
    [Effect.logWarn ignoringPacketsMsg]

/-- The general-port receive loop over a finite trace of datagrams. -/
def runGeneralListener (clients : List String) (ds : List Datagram) : List Effect :=
  ds.flatMap (generalStep clients)

/-- The event-port receive loop over a finite trace of timestamped datagrams. -/
def runEventListener (clients : List String) (ds : List (Datagram × Int)) : List Effect :=
  ds.flatMap fun p => eventStep clients p.1 p.2

/-- `phc.DefaultMaxClockFreqPPB`. Modelled from the spec: the constant lives
in the `phc` package outside this file; the spec calls it "a conservative
default bound" and its numeric value is immaterial to the claims. -/
def DefaultMaxClockFreqPPB : Int := 500000

/-- Servo-construction slice of `SPTP.init` as observed by the servo:
the seed passed to `servo.NewPiServo` and the list of `pi.SetMaxFreq` calls
issued, together with the value the local `maxFreq` variable holds when it is
logged. `freq` is the result of `p.clock.FrequencyPPB()` (an error is fatal to
`init`); `maxFreq` is the result of `p.clock.MaxFreqPPB()`. Note the source
calls `pi.SetMaxFreq` only in the non-error branch: on a read error the local
variable falls back to `phc.DefaultMaxClockFreqPPB` but is only logged. -/
structure ServoInit where
  seed : Int
  setMaxFreqCalls : List Int
  loggedMaxFreq : Int
deriving DecidableEq, Repr

/-- The servo-initialization tail of `SPTP.init` (from `p.clock.FrequencyPPB()`
through `p.pi = pi`). -/
def initServo (freq : Except GoErr Int) (maxFreq : Except GoErr Int) :
    Except GoErr ServoInit :=
  match freq with
  | Except.error e => Except.error e
  | Except.ok f =>
    match maxFreq with
    | Except.error _ =>
      Except.ok { seed := -f, setMaxFreqCalls := [], loggedMaxFreq := DefaultMaxClockFreqPPB }
    | Except.ok mf =>
      Except.ok { seed := -f, setMaxFreqCalls := [mf], loggedMaxFreq := mf }

/-! ## Specification-side helper definitions

These definitions restate, in declarative form, the sets and effect shapes the
claims talk about; the theorems below relate them to the embedded code. -/

/-- The candidate a result contributes to BMCA: present exactly when the
result has no error and a measurement. -/
def candOf (pr : String × RunResult) : Option (String × Measurement) :=
  match pr.2.error, pr.2.measurement with
  | none, some m => some (pr.1, m)
  | _, _ => none

/-- The candidates of a tick: peers whose result has no error and a
non-nil measurement, with their measurements, in result order. -/
def cands (results : List (String × RunResult)) : List (String × Measurement) :=
  results.filterMap candOf

/-- The per-entry effects of the aggregation loop body. -/
def entryFx (env : Env) (pr : String × RunResult) : List Effect :=
  Effect.setGMStats pr.1 ::
    (match pr.2.error with
     | some e => handleExchangeError env pr.1 e
     | none =>
       Effect.backoffReset pr.1 ::
         (match pr.2.measurement with
          | none => [Effect.logError missingMeasurementMsg]
          | some _ => []))

/-- The state part of the aggregation loop body. -/
def aggDataStep (env : Env) (a : AggState) (pr : String × RunResult) : AggState :=
  match candOf pr with
  | none => a
  | some c =>
    { gmsAvailable := a.gmsAvailable + 1,
      announces := a.announces ++ [c.2.announce],
      idsToClients := mapSet a.idsToClients c.2.announce.grandmasterIdentity c.1,
      localPrioMap := mapSet a.localPrioMap c.2.announce.grandmasterIdentity
        (env.priorities c.1) }

/-- Association map built by repeated Go map assignment over a list. -/
def buildMap {α β : Type} (key : α → ClockIdentity) (val : α → β)
    (m0 : List (ClockIdentity × β)) (l : List α) : List (ClockIdentity × β) :=
  l.foldl (fun m p => mapSet m (key p) (val p)) m0

/-- The single backoff operation the aggregation applies to a result:
reset on success, tick on the sentinel backoff error, bump otherwise. -/
def expectedBackoffOp (addr : String) (res : RunResult) : Effect :=
  match res.error with
  | none => Effect.backoffReset addr
  | some e =>
    if e = GoErr.errBackoff then Effect.backoffTick addr else Effect.backoffBump addr

/-- Recognizes the backoff operations targeting a given peer. -/
def backoffFxFor (addr : String) : Effect → Bool
  | Effect.backoffReset a => a = addr
  | Effect.backoffTick a => a = addr
  | Effect.backoffBump a => a = addr
  | _ => false

/-- Recognizes servo sampling and clock-discipline effects. -/
def isDisciplineFx : Effect → Bool
  | Effect.servoSample _ _ => true
  | Effect.clockStep _ => true
  | Effect.clockAdjFreq _ => true
  | Effect.setSync => true
  | _ => false

/-- Recognizes the system-clock synchronization mark. -/
def isSetSync : Effect → Bool
  | Effect.setSync => true
  | _ => false

/-- Recognizes the tick-timing observability effects: the tick-duration
counter and the tick-deviation warning. -/
def isTickTimingFx : Effect → Bool
  | Effect.setCounter n _ => n = tickDurationCounter
  | Effect.logWarn m => m = tickDeviationMsg
  | _ => false

/-- The durations of the timer arming calls in a trace, in order. -/
def armFires (fx : List Effect) : List Int :=
  fx.filterMap fun e =>
    match e with
    | Effect.armTimer d => some d
    | _ => none

/-- Number of timer expiries handled before the loop sees a cancellation. -/
def firesBeforeCancel : List LoopEvent → Nat
  | [] => 0
  | LoopEvent.cancel :: _ => 0
  | LoopEvent.timerFire _ :: rest => firesBeforeCancel rest + 1

/-- The inbound queue of one peer, read off a listener trace: the packets
enqueued on that peer's channel, in order. -/
def deliveredTo (addr : String) (fx : List Effect) : List InPacket :=
  fx.filterMap fun e =>
    match e with
    | Effect.enqueue a pkt => if a = addr then some pkt else none
    | _ => none

/-- Recognizes timer arming calls. -/
def isArmFx : Effect → Bool
  | Effect.armTimer _ => true
  | _ => false

/-! ## Concrete fixtures used to instantiate the theorems -/

/-- A sample measurement. -/
def wMeas : Measurement :=
  { announce := { grandmasterIdentity := 42, dataset := 0 },
    offset := 500, delay := 10, timestamp := 777 }

/-- A sample environment: two-priority config, BMCA picking the first
candidate, a servo answering `(5, locked)`, a system clock whose calls all
succeed. -/
def wEnv : Env :=
  { interval := 1000000000, exchangeTimeout := 100, priorities := fun _ => 2,
    bmca := fun l _ => l.head?, sampleServo := fun _ _ => (5, ServoState.locked),
    meanFreq := 7, stepErr := fun _ => none, adjErr := fun _ => none,
    setSyncErr := none, clockKind := ClockKind.sys,
    bumpRet := fun _ => 1, tickRet := fun _ => 0 }

/-- `wEnv` with a BMCA that never selects a winner. -/
def wEnvNone : Env := { wEnv with bmca := fun _ _ => none }

/-- The successful sample result. -/
def wRR : RunResult := { server := "peerA", error := none, measurement := some wMeas }

/-- The suppressed-peer sample result (sentinel backoff error). -/
def wBackoffRR : RunResult :=
  { server := "peerB", error := some GoErr.errBackoff, measurement := none }

/-- A sample tick result map: one success, one suppressed peer. -/
def wResults : List (String × RunResult) :=
  [("peerA", wRR), ("peerB", wBackoffRR)]

/-- A sample exchange oracle answering every probe with the sample
measurement. -/
def wRunOnce : String → Int → RunResult :=
  fun a _ => { server := a, error := none, measurement := some wMeas }

/-- A successful result under a given peer name. -/
def cOk (name : String) : RunResult :=
  { server := name, error := none, measurement := some wMeas }

/-- A failed (timed-out) result under a given peer name. -/
def cErr (name : String) : RunResult :=
  { server := name, error := some (GoErr.other "timeout"), measurement := none }

/-- A 50-peer result map with 29 successes: the percentage the source
publishes for it is 57, although `100 * 29 / 50 = 58` in exact arithmetic. -/
def cResults : List (String × RunResult) :=
  (List.range 50).map (fun i =>
    ("p" ++ toString i, if i < 29 then cOk ("p" ++ toString i) else cErr ("p" ++ toString i)))

/-! ## Aggregation-loop lemmas -/

theorem aggStep_snd (env : Env) (acc : AggState × List Effect) (pr : String × RunResult) :
    (aggStep env acc pr).2 = acc.2 ++ entryFx env pr := by
  rcases acc with ⟨a, fx⟩
  rcases pr with ⟨addr, res⟩
  rcases h : res.error with _ | e
  · rcases hm : res.measurement with _ | m <;> simp [aggStep, entryFx, h, hm]
  · simp [aggStep, entryFx, h]

theorem aggStep_fst (env : Env) (acc : AggState × List Effect) (pr : String × RunResult) :
    (aggStep env acc pr).1 = aggDataStep env acc.1 pr := by
  rcases acc with ⟨a, fx⟩
  rcases pr with ⟨addr, res⟩
  rcases h : res.error with _ | e
  · rcases hm : res.measurement with _ | m <;>
      simp [aggStep, aggDataStep, candOf, h, hm]
  · simp [aggStep, aggDataStep, candOf, h]

theorem foldl_aggStep_snd (env : Env) (l : List (String × RunResult)) :
    ∀ acc : AggState × List Effect,
      (l.foldl (aggStep env) acc).2 = acc.2 ++ l.flatMap (entryFx env) := by
  induction l with
  | nil => intro acc; simp
  | cons pr t ih =>
    intro acc
    rw [List.foldl_cons, ih (aggStep env acc pr), aggStep_snd]
    simp

theorem foldl_aggStep_fst (env : Env) (l : List (String × RunResult)) :
    ∀ acc : AggState × List Effect,
      (l.foldl (aggStep env) acc).1 = l.foldl (aggDataStep env) acc.1 := by
  induction l with
  | nil => intro acc; rfl
  | cons pr t ih =>
    intro acc
    rw [List.foldl_cons, ih (aggStep env acc pr), aggStep_fst, List.foldl_cons]

theorem foldl_aggDataStep (env : Env) (l : List (String × RunResult)) :
    ∀ a : AggState, l.foldl (aggDataStep env) a =
      { gmsAvailable := a.gmsAvailable + (cands l).length,
        announces := a.announces ++ (cands l).map (fun p => p.2.announce),
        idsToClients := buildMap (fun p => p.2.announce.grandmasterIdentity)
          (fun p => p.1) a.idsToClients (cands l),
        localPrioMap := buildMap (fun p => p.2.announce.grandmasterIdentity)
          (fun p => env.priorities p.1) a.localPrioMap (cands l) } := by
  induction l with
  | nil => intro a; simp [cands, buildMap]
  | cons pr t ih =>
    intro a
    rw [List.foldl_cons, ih]
    rcases hc : candOf pr with _ | c
    · simp [cands, aggDataStep, List.filterMap_cons, hc]
    · simp [cands, aggDataStep, List.filterMap_cons, hc, buildMap, Nat.add_assoc,
        Nat.add_comm 1]

theorem aggregateResults_fst (env : Env) (results : List (String × RunResult)) :
    (aggregateResults env results).1 =
      { gmsAvailable := (cands results).length,
        announces := (cands results).map (fun p => p.2.announce),
        idsToClients := buildMap (fun p => p.2.announce.grandmasterIdentity)
          (fun p => p.1) [] (cands results),
        localPrioMap := buildMap (fun p => p.2.announce.grandmasterIdentity)
          (fun p => env.priorities p.1) [] (cands results) } := by
  rw [aggregateResults, foldl_aggStep_fst, foldl_aggDataStep]
  simp [AggState.start]

theorem aggregateResults_snd (env : Env) (results : List (String × RunResult)) :
    (aggregateResults env results).2 = results.flatMap (entryFx env) := by
  rw [aggregateResults, foldl_aggStep_snd]
  rfl

/-! ## Association-map lemmas (Go map assignment and lookup) -/

theorem lookup_cons_self {α : Type} (k : ClockIdentity) (v : α)
    (t : List (ClockIdentity × α)) : List.lookup k ((k, v) :: t) = some v := by
  simp [List.lookup]

theorem lookup_cons_ne {α : Type} (k k0 : ClockIdentity) (v0 : α)
    (t : List (ClockIdentity × α)) (h : k ≠ k0) :
    List.lookup k ((k0, v0) :: t) = List.lookup k t := by
  have hb : (k == k0) = false := beq_eq_false_iff_ne.mpr h
  simp [List.lookup, hb]

theorem lookup_map_replace {α : Type} (k : ClockIdentity) (v : α) :
    ∀ m : List (ClockIdentity × α), (m.lookup k).isSome →
      (m.map (fun p => if p.1 = k then (k, v) else p)).lookup k = some v := by
  intro m
  induction m with
  | nil => simp
  | cons p t ih =>
    rcases p with ⟨k0, v0⟩
    by_cases h : k0 = k
    · subst h
      intro _
      rw [List.map_cons]
      simp only [if_pos rfl]
      exact lookup_cons_self _ _ _
    · intro hs
      rw [lookup_cons_ne k k0 v0 t (Ne.symm h)] at hs
      rw [List.map_cons]
      simp only [if_neg h]
      rw [lookup_cons_ne k k0 v0 _ (Ne.symm h)]
      exact ih hs

theorem lookup_map_replace_ne {α : Type} (k k' : ClockIdentity) (v : α) (hne : k' ≠ k) :
    ∀ m : List (ClockIdentity × α),
      (m.map (fun p => if p.1 = k then (k, v) else p)).lookup k' = m.lookup k' := by
  intro m
  induction m with
  | nil => simp
  | cons p t ih =>
    rcases p with ⟨k0, v0⟩
    rw [List.map_cons]
    by_cases h : k0 = k
    · subst h
      rw [show (if ((k0, v0) : ClockIdentity × α).1 = k0 then (k0, v) else (k0, v0)) = (k0, v)
        from if_pos rfl]
      rw [lookup_cons_ne _ _ _ _ hne, lookup_cons_ne _ _ _ _ hne]
      exact ih
    · simp only [if_neg h]
      by_cases h2 : k' = k0
      · subst h2
        rw [lookup_cons_self, lookup_cons_self]
      · rw [lookup_cons_ne _ _ _ _ h2, lookup_cons_ne _ _ _ _ h2]
        exact ih

theorem lookup_append_of_none {α : Type} (k : ClockIdentity) (l : List (ClockIdentity × α)) :
    ∀ m : List (ClockIdentity × α), m.lookup k = none → (m ++ l).lookup k = l.lookup k := by
  intro m
  induction m with
  | nil => simp
  | cons p t ih =>
    rcases p with ⟨k0, v0⟩
    intro hn
    by_cases h : k = k0
    · subst h
      rw [lookup_cons_self] at hn
      cases hn
    · rw [lookup_cons_ne _ _ _ _ h] at hn
      rw [List.cons_append, lookup_cons_ne _ _ _ _ h]
      exact ih hn

theorem lookup_append_single_ne {α : Type} (k k' : ClockIdentity) (v : α) (hne : k' ≠ k) :
    ∀ m : List (ClockIdentity × α), (m ++ [(k, v)]).lookup k' = m.lookup k' := by
  intro m
  induction m with
  | nil =>
    have hb : (k' == k) = false := beq_eq_false_iff_ne.mpr hne
    simp [List.lookup, hb]
  | cons p t ih =>
    rcases p with ⟨k0, v0⟩
    by_cases h : k' = k0
    · subst h
      rw [List.cons_append, lookup_cons_self, lookup_cons_self]
    · rw [List.cons_append, lookup_cons_ne _ _ _ _ h, lookup_cons_ne _ _ _ _ h]
      exact ih

theorem mapSet_lookup_self {α : Type} (m : List (ClockIdentity × α)) (k : ClockIdentity)
    (v : α) : (mapSet m k v).lookup k = some v := by
  unfold mapSet
  split
  · exact lookup_map_replace k v m (by assumption)
  · have hn : m.lookup k = none := by
      rcases h : m.lookup k with _ | w
      · rfl
      · simp [h] at *
    rw [lookup_append_of_none k _ m hn]
    exact lookup_cons_self _ _ _

theorem mapSet_lookup_ne {α : Type} (m : List (ClockIdentity × α)) (k k' : ClockIdentity)
    (v : α) (hne : k' ≠ k) : (mapSet m k v).lookup k' = m.lookup k' := by
  unfold mapSet
  split
  · exact lookup_map_replace_ne k k' v hne m
  · exact lookup_append_single_ne k k' v hne m

theorem buildMap_lookup_of_not_mem {α β : Type} (key : α → ClockIdentity) (val : α → β) :
    ∀ (l : List α) (m0 : List (ClockIdentity × β)) (k : ClockIdentity),
      k ∉ l.map key → (buildMap key val m0 l).lookup k = m0.lookup k := by
  intro l
  induction l with
  | nil => intro m0 k _; rfl
  | cons q t ih =>
    intro m0 k hk
    simp only [List.map_cons, List.mem_cons, not_or] at hk
    rw [show buildMap key val m0 (q :: t) = buildMap key val (mapSet m0 (key q) (val q)) t
      from rfl]
    rw [ih _ k hk.2, mapSet_lookup_ne _ _ _ _ hk.1]

theorem buildMap_lookup_self {α β : Type} (key : α → ClockIdentity) (val : α → β) :
    ∀ (l : List α) (m0 : List (ClockIdentity × β)) (p : α),
      (l.map key).Nodup → p ∈ l →
      (buildMap key val m0 l).lookup (key p) = some (val p) := by
  intro l
  induction l with
  | nil => intro m0 p _ hp; cases hp
  | cons q t ih =>
    intro m0 p hnd hp
    rw [List.map_cons, List.nodup_cons] at hnd
    rw [show buildMap key val m0 (q :: t) = buildMap key val (mapSet m0 (key q) (val q)) t
      from rfl]
    rcases List.mem_cons.mp hp with h | h
    · subst h
      rw [buildMap_lookup_of_not_mem key val t _ (key p) hnd.1, mapSet_lookup_self]
    · exact ih _ p hnd.2 h

/-! ## Effect-shape lemmas

Each component of `processResults` emits effects of a known shape; these
lemmas let the claim theorems rule predicates out component by component. -/

theorem entryFx_all (env : Env) (pr : String × RunResult) (P : Effect → Bool)
    (h1 : ∀ a, P (Effect.setGMStats a) = false)
    (h2 : ∀ a, P (Effect.backoffReset a) = false)
    (h3 : ∀ a, P (Effect.backoffTick a) = false)
    (h4 : ∀ a, P (Effect.backoffBump a) = false)
    (h5 : P (Effect.logError resultErrMsg) = false)
    (h6 : P (Effect.logError missingMeasurementMsg) = false)
    (h7 : P (Effect.logWarn backoffExtendedMsg) = false) :
    ∀ e ∈ entryFx env pr, P e = false := by
  intro e he
  rcases pr with ⟨addr, res⟩
  simp only [entryFx, handleExchangeError] at he
  cases herr : res.error with
  | none =>
    cases hm : res.measurement with
    | none =>
      simp only [herr, hm] at he
      fin_cases he <;> first | exact h1 _ | exact h2 _ | exact h6
    | some m =>
      simp only [herr, hm] at he
      fin_cases he <;> first | exact h1 _ | exact h2 _
  | some err =>
    simp only [herr] at he
    split_ifs at he with hs hb <;>
      (try simp only [List.cons_append, List.nil_append, List.append_nil,
        List.append_assoc] at he) <;>
      fin_cases he <;>
      first | exact h1 _ | exact h3 _ | exact h4 _ | exact h5 | exact h7

theorem flatMap_entryFx_all (env : Env) (results : List (String × RunResult))
    (P : Effect → Bool)
    (h1 : ∀ a, P (Effect.setGMStats a) = false)
    (h2 : ∀ a, P (Effect.backoffReset a) = false)
    (h3 : ∀ a, P (Effect.backoffTick a) = false)
    (h4 : ∀ a, P (Effect.backoffBump a) = false)
    (h5 : P (Effect.logError resultErrMsg) = false)
    (h6 : P (Effect.logError missingMeasurementMsg) = false)
    (h7 : P (Effect.logWarn backoffExtendedMsg) = false) :
    ∀ e ∈ results.flatMap (entryFx env), P e = false := by
  intro e he
  rcases List.mem_flatMap.mp he with ⟨pr, _, hin⟩
  exact entryFx_all env pr P h1 h2 h3 h4 h5 h6 h7 e hin

theorem tickStatsFx_all (env : Env) (lt : Option Int) (now : Int) (P : Effect → Bool)
    (h1 : ∀ v, P (Effect.setCounter tickDurationCounter v) = false)
    (h2 : P (Effect.logWarn tickDeviationMsg) = false) :
    ∀ e ∈ tickStatsFx env lt now, P e = false := by
  intro e he
  cases lt with
  | none => simp [tickStatsFx] at he
  | some t =>
    simp only [tickStatsFx] at he
    split_ifs at he <;>
      (try simp only [List.cons_append, List.nil_append, List.append_nil,
        List.append_assoc] at he) <;>
      fin_cases he <;> first | exact h1 _ | exact h2

theorem gmCountersFx_all (t a : Nat) (P : Effect → Bool)
    (h1 : ∀ v, P (Effect.setCounter "ptp.sptp.gms.total" v) = false)
    (h2 : ∀ v, P (Effect.setCounter "ptp.sptp.gms.available_pct" v) = false) :
    ∀ e ∈ gmCountersFx t a, P e = false := by
  intro e he
  simp only [gmCountersFx] at he
  split_ifs at he <;> fin_cases he <;> first | exact h1 _ | exact h2 _

theorem disciplineFx_all (env : Env) (f : Int) (s : ServoState) (off : Int)
    (P : Effect → Bool)
    (h1 : ∀ v, P (Effect.clockStep v) = false)
    (h2 : ∀ v, P (Effect.clockAdjFreq v) = false)
    (h3 : P Effect.setSync = false)
    (h4 : P (Effect.logError stepFailMsg) = false)
    (h5 : P (Effect.logError adjFailMsg) = false)
    (h6 : P (Effect.logError syncFailMsg) = false) :
    ∀ e ∈ disciplineFx env f s off, P e = false := by
  intro e he
  cases s <;> simp only [disciplineFx] at he
  · cases he
  · rcases h : env.stepErr (-off) with _ | m <;> simp only [h] at he <;>
      fin_cases he <;> first | exact h1 _ | exact h4
  · rcases h : env.adjErr (-f) with _ | m <;>
      rcases h2s : env.setSyncErr with _ | m2 <;>
      by_cases h3s : env.clockKind = ClockKind.sys <;>
      (try simp only [h, h2s, h3s, if_true, if_false, ite_true, ite_false,
        List.cons_append, List.nil_append, List.append_nil, List.append_assoc] at he) <;>
      fin_cases he <;>
      first | exact h2 _ | exact h3 | exact h5 | exact h6
  · cases he

theorem selectAndDiscipline_all (env : Env) (st : SPTPState)
    (results : List (String × RunResult)) (agg : AggState) (P : Effect → Bool)
    (g1 : ∀ A Pm, P (Effect.bmcaCall A Pm) = false)
    (g2 : P (Effect.logWarn noBestMasterMsg) = false)
    (g3 : P Effect.nilDeref = false)
    (g4 : P (Effect.logWarn newBestMasterMsg) = false)
    (g5 : ∀ o ts, P (Effect.servoSample o ts) = false)
    (h1 : ∀ v, P (Effect.clockStep v) = false)
    (h2 : ∀ v, P (Effect.clockAdjFreq v) = false)
    (h3 : P Effect.setSync = false)
    (h4 : P (Effect.logError stepFailMsg) = false)
    (h5 : P (Effect.logError adjFailMsg) = false)
    (h6 : P (Effect.logError syncFailMsg) = false) :
    ∀ e ∈ (selectAndDiscipline env st results agg).2, P e = false := by
  intro e he
  unfold selectAndDiscipline at he
  rcases hb : env.bmca agg.announces agg.localPrioMap with _ | best <;>
    simp only [hb] at he
  · fin_cases he
    · exact g1 _ _
    · exact g2
  · rcases hid : agg.idsToClients.lookup best.grandmasterIdentity with _ | bestAddr <;>
      simp only [hid] at he
    · fin_cases he
      · exact g1 _ _
      · exact g3
    · rcases hrr : results.lookup bestAddr with _ | rr <;> simp only [hrr] at he
      · fin_cases he
        · exact g1 _ _
        · exact g3
      · rcases hbm : rr.measurement with _ | bm <;> simp only [hbm] at he
        · fin_cases he
          · exact g1 _ _
          · exact g3
        · by_cases hgm : st.bestGM ≠ bestAddr
          · rw [if_pos hgm] at he
            simp only [List.cons_append, List.nil_append, List.append_assoc,
              List.mem_cons] at he
            rcases he with rfl | rfl | rfl | hin
            · exact g1 _ _
            · exact g4
            · exact g5 _ _
            · exact disciplineFx_all env _ _ _ P h1 h2 h3 h4 h5 h6 e hin
          · rw [if_neg hgm] at he
            simp only [List.cons_append, List.nil_append, List.append_assoc,
              List.mem_cons] at he
            rcases he with rfl | rfl | hin
            · exact g1 _ _
            · exact g5 _ _
            · exact disciplineFx_all env _ _ _ P h1 h2 h3 h4 h5 h6 e hin

/-! ## Decomposition of processResults -/

theorem processResults_eq (env : Env) (st : SPTPState) (now : Int)
    (results : List (String × RunResult)) :
    processResults env st now results =
      ((selectAndDiscipline env { st with lastTick := some now } results
          (aggregateResults env results).1).1,
       tickStatsFx env st.lastTick now ++ results.flatMap (entryFx env) ++
         gmCountersFx results.length (cands results).length ++
         (selectAndDiscipline env { st with lastTick := some now } results
           (aggregateResults env results).1).2) := by
  have hA : (aggregateResults env results).1.gmsAvailable = (cands results).length := by
    rw [aggregateResults_fst]
  simp only [processResults, aggregateResults_snd, hA]

theorem selectAndDiscipline_some (env : Env) (st : SPTPState)
    (results : List (String × RunResult)) (agg : AggState) (best : Announce)
    (bestAddr : String) (rr : RunResult) (bm : Measurement)
    (hb : env.bmca agg.announces agg.localPrioMap = some best)
    (hid : agg.idsToClients.lookup best.grandmasterIdentity = some bestAddr)
    (hrr : results.lookup bestAddr = some rr)
    (hbm : rr.measurement = some bm) :
    selectAndDiscipline env st results agg =
      ({ st with bestGM := bestAddr },
       Effect.bmcaCall agg.announces agg.localPrioMap ::
         ((if st.bestGM ≠ bestAddr then [Effect.logWarn newBestMasterMsg] else []) ++
          Effect.servoSample bm.offset bm.timestamp ::
            disciplineFx env (env.sampleServo bm.offset bm.timestamp).1
              (env.sampleServo bm.offset bm.timestamp).2 bm.offset)) := by
  unfold selectAndDiscipline
  simp only [hb, hid, hrr, hbm]
  simp

theorem selectAndDiscipline_none (env : Env) (st : SPTPState)
    (results : List (String × RunResult)) (agg : AggState)
    (hb : env.bmca agg.announces agg.localPrioMap = none) :
    selectAndDiscipline env st results agg =
      ({ st with bestGM := "" },
       [Effect.bmcaCall agg.announces agg.localPrioMap,
        Effect.logWarn noBestMasterMsg]) := by
  unfold selectAndDiscipline
  simp only [hb]
  rfl

theorem disciplineFx_eq (env : Env) (f : Int) (s : ServoState) (off : Int) :
    disciplineFx env f s off =
      match s with
      | ServoState.jump =>
        Effect.clockStep (-off) ::
          (if (env.stepErr (-off)).isSome then [Effect.logError stepFailMsg] else [])
      | ServoState.locked =>
        (Effect.clockAdjFreq (-f) ::
          (if (env.adjErr (-f)).isSome then [Effect.logError adjFailMsg] else [])) ++
        (if env.clockKind = ClockKind.sys then
          Effect.setSync ::
            (if env.setSyncErr.isSome then [Effect.logError syncFailMsg] else [])
         else [])
      | _ => [] := by
  cases s
  · rfl
  · rcases h : env.stepErr (-off) with _ | m <;> simp [disciplineFx, h]
  · rcases h : env.adjErr (-f) with _ | m <;>
      rcases h2 : env.setSyncErr with _ | m2 <;>
      simp [disciplineFx, h, h2]
  · rfl

theorem disciplineFx_no_setSync (env : Env) (f : Int) (s : ServoState) (off : Int)
    (hk : env.clockKind ≠ ClockKind.sys) :
    ∀ e ∈ disciplineFx env f s off, isSetSync e = false := by
  intro e he
  cases s <;> simp only [disciplineFx] at he
  · cases he
  · rcases h : env.stepErr (-off) with _ | m <;> simp only [h] at he <;>
      fin_cases he <;> rfl
  · rw [if_neg hk, List.append_nil] at he
    rcases h : env.adjErr (-f) with _ | m <;> simp only [h] at he <;>
      fin_cases he <;> rfl
  · cases he

theorem selectAndDiscipline_snd_head (env : Env) (st : SPTPState)
    (results : List (String × RunResult)) (agg : AggState) :
    ∃ rest, (selectAndDiscipline env st results agg).2 =
      Effect.bmcaCall agg.announces agg.localPrioMap :: rest := by
  rcases hb : env.bmca agg.announces agg.localPrioMap with _ | best
  · rw [selectAndDiscipline_none env st results agg hb]
    exact ⟨_, rfl⟩
  · unfold selectAndDiscipline
    simp only [hb]
    rcases hid : agg.idsToClients.lookup best.grandmasterIdentity with _ | bestAddr <;>
      simp only [hid]
    · exact ⟨_, rfl⟩
    · rcases hrr : results.lookup bestAddr with _ | rr <;> simp only [hrr]
      · exact ⟨_, rfl⟩
      · rcases hbm : rr.measurement with _ | bm <;> simp only [hbm]
        · exact ⟨_, rfl⟩
        · refine ⟨(if st.bestGM ≠ bestAddr then [Effect.logWarn newBestMasterMsg] else []) ++
            Effect.servoSample bm.offset bm.timestamp ::
              disciplineFx env (env.sampleServo bm.offset bm.timestamp).1
                (env.sampleServo bm.offset bm.timestamp).2 bm.offset, ?_⟩
          simp

theorem filter_eq_nil_of_all {fx : List Effect} {P : Effect → Bool}
    (h : ∀ e ∈ fx, P e = false) : fx.filter P = [] := by
  induction fx with
  | nil => rfl
  | cons a t ih =>
    have ha := h a (List.mem_cons_self a t)
    simp [List.filter_cons, ha, ih (fun e he => h e (List.mem_cons_of_mem _ he))]

theorem entryFx_filter_backoff (env : Env) (addr : String) (pr : String × RunResult) :
    (entryFx env pr).filter (backoffFxFor addr) =
      if pr.1 = addr then [expectedBackoffOp addr pr.2] else [] := by
  rcases pr with ⟨a, res⟩
  by_cases ha : a = addr
  · subst ha
    cases herr : res.error with
    | none =>
      cases hm : res.measurement with
      | none =>
        simp [entryFx, expectedBackoffOp, backoffFxFor, herr, hm, List.filter_cons]
      | some m =>
        simp [entryFx, expectedBackoffOp, backoffFxFor, herr, hm, List.filter_cons]
    | some e =>
      by_cases hback : e = GoErr.errBackoff <;>
        by_cases hbump : env.bumpRet a ≠ 0 <;>
        simp [entryFx, handleExchangeError, expectedBackoffOp, backoffFxFor, herr,
          hback, hbump, List.filter_cons, List.filter_append]
  · rw [if_neg ha]
    cases herr : res.error with
    | none =>
      cases hm : res.measurement with
      | none => simp [entryFx, backoffFxFor, herr, hm, List.filter_cons, ha]
      | some m => simp [entryFx, backoffFxFor, herr, hm, List.filter_cons, ha]
    | some e =>
      by_cases hback : e = GoErr.errBackoff <;>
        by_cases hbump : env.bumpRet a ≠ 0 <;>
        simp [entryFx, handleExchangeError, backoffFxFor, herr, hback, hbump,
          List.filter_cons, List.filter_append, ha]

theorem flatMap_filter_backoff_not_mem (env : Env) (addr : String) :
    ∀ l : List (String × RunResult), addr ∉ l.map Prod.fst →
      (l.flatMap (entryFx env)).filter (backoffFxFor addr) = [] := by
  intro l
  induction l with
  | nil => intro _; rfl
  | cons q t ih =>
    intro h
    simp only [List.map_cons, List.mem_cons, not_or] at h
    rw [List.flatMap_cons, List.filter_append, entryFx_filter_backoff, ih h.2,
      if_neg (fun hq => h.1 hq.symm)]
    rfl

theorem flatMap_filter_backoff (env : Env) (addr : String) (res : RunResult) :
    ∀ l : List (String × RunResult), (l.map Prod.fst).Nodup → (addr, res) ∈ l →
      (l.flatMap (entryFx env)).filter (backoffFxFor addr) =
        [expectedBackoffOp addr res] := by
  intro l
  induction l with
  | nil => intro _ h; cases h
  | cons q t ih =>
    intro hnd hmem
    rw [List.map_cons, List.nodup_cons] at hnd
    rw [List.flatMap_cons, List.filter_append, entryFx_filter_backoff]
    rcases List.mem_cons.mp hmem with h | h
    · rcases q with ⟨qa, qr⟩
      cases h
      rw [if_pos rfl, flatMap_filter_backoff_not_mem env addr t hnd.1, List.append_nil]
    · have haddr : addr ∈ t.map Prod.fst := List.mem_map.mpr ⟨(addr, res), h, rfl⟩
      have hq : q.1 ≠ addr := fun he => hnd.1 (he ▸ haddr)
      rw [if_neg hq, List.nil_append]
      exact ih hnd.2 h

/-! ## Claim theorems -/

/-- **C1**: after a winner is selected, the servo is sampled with the winner's
offset and timestamp; on `StateJump` the clock is stepped by the negated
offset; on `StateLocked` the clock gets a frequency adjustment equal to the
negated correction and, only when the clock is the system clock, is marked
synchronized; a step or frequency-adjust failure produces an error log and the
tick completes normally (the new state records the winner). -/
theorem c1_servo_state_dispatch (env : Env) (st : SPTPState) (now : Int)
    (results : List (String × RunResult)) (best : Announce) (bestAddr : String)
    (rr : RunResult) (bm : Measurement) (freqAdj : Int) (sstate : ServoState)
    (hb : env.bmca (aggregateResults env results).1.announces
        (aggregateResults env results).1.localPrioMap = some best)
    (hid : (aggregateResults env results).1.idsToClients.lookup
        best.grandmasterIdentity = some bestAddr)
    (hrr : results.lookup bestAddr = some rr)
    (hbm : rr.measurement = some bm)
    (hs : env.sampleServo bm.offset bm.timestamp = (freqAdj, sstate)) :
    (processResults env st now results).1.bestGM = bestAddr ∧
    (∃ pre, (processResults env st now results).2 =
      pre ++ Effect.servoSample bm.offset bm.timestamp ::
        (match sstate with
         | ServoState.jump =>
           Effect.clockStep (-bm.offset) ::
             (if (env.stepErr (-bm.offset)).isSome then [Effect.logError stepFailMsg]
              else [])
         | ServoState.locked =>
           (Effect.clockAdjFreq (-freqAdj) ::
             (if (env.adjErr (-freqAdj)).isSome then [Effect.logError adjFailMsg]
              else [])) ++
           (if env.clockKind = ClockKind.sys then
             Effect.setSync ::
               (if env.setSyncErr.isSome then [Effect.logError syncFailMsg] else [])
            else [])
         | _ => [])) ∧
    (env.clockKind ≠ ClockKind.sys →
      ∀ e ∈ (processResults env st now results).2, isSetSync e = false) := by
  rw [processResults_eq,
    selectAndDiscipline_some env _ results _ best bestAddr rr bm hb hid hrr hbm]
  refine ⟨rfl, ?_, ?_⟩
  · refine ⟨tickStatsFx env st.lastTick now ++ results.flatMap (entryFx env) ++
      gmCountersFx results.length (cands results).length ++
      Effect.bmcaCall (aggregateResults env results).1.announces
        (aggregateResults env results).1.localPrioMap ::
      (if st.bestGM ≠ bestAddr then [Effect.logWarn newBestMasterMsg] else []), ?_⟩
    rw [hs, disciplineFx_eq]
    simp [List.append_assoc]
  · intro hk e he
    simp only [List.append_assoc, List.mem_append] at he
    rcases he with h | h | h | h
    · exact tickStatsFx_all env st.lastTick now isSetSync (fun v => rfl) rfl e h
    · exact flatMap_entryFx_all env results isSetSync (fun a => rfl) (fun a => rfl)
        (fun a => rfl) (fun a => rfl) rfl rfl rfl e h
    · exact gmCountersFx_all _ _ isSetSync (fun v => rfl) (fun v => rfl) e h
    · rcases List.mem_cons.mp h with rfl | h2
      · rfl
      · rcases List.mem_append.mp h2 with h3 | h3
        · by_cases hgm : st.bestGM ≠ bestAddr
          · rw [if_pos hgm] at h3
            fin_cases h3
            rfl
          · rw [if_neg hgm] at h3
            cases h3
        · rcases List.mem_cons.mp h3 with rfl | h4
          · rfl
          · exact disciplineFx_no_setSync env _ _ _ hk e h4

/-- **C5**: on a tick where BMCA returns no winner, the stored best-grandmaster
selection is cleared to the empty string and no servo sampling, clock step,
frequency adjustment or sync-marking effect occurs; `processResults` still
returns normally. -/
theorem c5_no_winner_clears_selection (env : Env) (st : SPTPState) (now : Int)
    (results : List (String × RunResult))
    (hb : env.bmca (aggregateResults env results).1.announces
        (aggregateResults env results).1.localPrioMap = none) :
    (processResults env st now results).1.bestGM = "" ∧
    ∀ e ∈ (processResults env st now results).2, isDisciplineFx e = false := by
  rw [processResults_eq, selectAndDiscipline_none env _ results _ hb]
  refine ⟨rfl, ?_⟩
  intro e he
  simp only [List.append_assoc, List.mem_append] at he
  rcases he with h | h | h | h
  · exact tickStatsFx_all env st.lastTick now isDisciplineFx (fun v => rfl) rfl e h
  · exact flatMap_entryFx_all env results isDisciplineFx (fun a => rfl) (fun a => rfl)
      (fun a => rfl) (fun a => rfl) rfl rfl rfl e h
  · exact gmCountersFx_all _ _ isDisciplineFx (fun v => rfl) (fun v => rfl) e h
  · fin_cases h <;> rfl

theorem c1_witness :
    (wEnv.bmca (aggregateResults wEnv wResults).1.announces
        (aggregateResults wEnv wResults).1.localPrioMap =
      some { grandmasterIdentity := 42, dataset := 0 }) ∧
    ((aggregateResults wEnv wResults).1.idsToClients.lookup 42 = some "peerA") ∧
    (wResults.lookup "peerA" = some wRR) ∧
    (wRR.measurement = some wMeas) ∧
    (wEnv.sampleServo wMeas.offset wMeas.timestamp = (5, ServoState.locked)) ∧
    ((processResults wEnv initialState 50 wResults).1.bestGM = "peerA" ∧
     (∃ pre, (processResults wEnv initialState 50 wResults).2 =
       pre ++ Effect.servoSample wMeas.offset wMeas.timestamp ::
         ((Effect.clockAdjFreq (-5) ::
            (if (wEnv.adjErr (-5)).isSome then [Effect.logError adjFailMsg] else [])) ++
          (if wEnv.clockKind = ClockKind.sys then
            Effect.setSync ::
              (if wEnv.setSyncErr.isSome then [Effect.logError syncFailMsg] else [])
           else []))) ∧
     (wEnv.clockKind ≠ ClockKind.sys →
       ∀ e ∈ (processResults wEnv initialState 50 wResults).2, isSetSync e = false)) := by
  refine ⟨rfl, rfl, rfl, rfl, rfl, ?_⟩
  exact c1_servo_state_dispatch wEnv initialState 50 wResults
    { grandmasterIdentity := 42, dataset := 0 } "peerA" wRR wMeas 5 ServoState.locked
    rfl rfl rfl rfl rfl

theorem c5_witness :
    (wEnvNone.bmca (aggregateResults wEnvNone wResults).1.announces
        (aggregateResults wEnvNone wResults).1.localPrioMap = none) ∧
    ((processResults wEnvNone initialState 50 wResults).1.bestGM = "" ∧
     ∀ e ∈ (processResults wEnvNone initialState 50 wResults).2,
       isDisciplineFx e = false) :=
  ⟨rfl, c5_no_winner_clears_selection wEnvNone initialState 50 wResults rfl⟩

/-- **C2**: the candidate list handed to BMCA is exactly the announce
datasets of the peers whose result has no error and a non-nil measurement,
and the local-priority map handed alongside maps each included candidate's
grandmaster identity to that peer's configured local priority (stated under
the natural side condition that the included candidates advertise pairwise
distinct grandmaster identities). -/
theorem c2_bmca_input (env : Env) (st : SPTPState) (now : Int)
    (results : List (String × RunResult))
    (hnd : ((cands results).map (fun p => p.2.announce.grandmasterIdentity)).Nodup) :
    ∃ pre post,
      (processResults env st now results).2 =
        pre ++ Effect.bmcaCall ((cands results).map (fun p => p.2.announce))
          (aggregateResults env results).1.localPrioMap :: post ∧
      ∀ p ∈ cands results,
        ((aggregateResults env results).1.localPrioMap).lookup
          p.2.announce.grandmasterIdentity = some (env.priorities p.1) := by
  rw [processResults_eq]
  obtain ⟨rest, hrest⟩ := selectAndDiscipline_snd_head env { st with lastTick := some now }
    results (aggregateResults env results).1
  refine ⟨tickStatsFx env st.lastTick now ++ results.flatMap (entryFx env) ++
    gmCountersFx results.length (cands results).length, rest, ?_, ?_⟩
  · rw [hrest]
    have hann : (aggregateResults env results).1.announces =
        (cands results).map (fun p => p.2.announce) := by
      rw [aggregateResults_fst]
    rw [hann]
  · intro p hp
    have hl : (aggregateResults env results).1.localPrioMap =
        buildMap (fun p => p.2.announce.grandmasterIdentity)
          (fun p => env.priorities p.1) [] (cands results) := by
      rw [aggregateResults_fst]
    rw [hl]
    exact buildMap_lookup_self _ _ (cands results) [] p hnd hp

theorem c2_witness :
    (((cands wResults).map (fun p => p.2.announce.grandmasterIdentity)).Nodup) ∧
    (∃ pre post,
      (processResults wEnv initialState 50 wResults).2 =
        pre ++ Effect.bmcaCall ((cands wResults).map (fun p => p.2.announce))
          (aggregateResults wEnv wResults).1.localPrioMap :: post ∧
      ∀ p ∈ cands wResults,
        ((aggregateResults wEnv wResults).1.localPrioMap).lookup
          p.2.announce.grandmasterIdentity = some (wEnv.priorities p.1)) :=
  ⟨by decide, c2_bmca_input wEnv initialState 50 wResults (by decide)⟩

/-- **C3**: per tick and per peer, the aggregation applies exactly one backoff
operation to that peer's backoff state: a reset when its result has no error,
a bare suppression-timer tick when it carries the sentinel backoff error, and
a bump (suppression extension) for any other error. -/
theorem c3_backoff_transitions (env : Env) (st : SPTPState) (now : Int)
    (results : List (String × RunResult)) (addr : String) (res : RunResult)
    (hnd : (results.map Prod.fst).Nodup) (hmem : (addr, res) ∈ results) :
    ((processResults env st now results).2).filter (backoffFxFor addr) =
      [expectedBackoffOp addr res] := by
  rw [processResults_eq]
  simp only [List.filter_append]
  rw [filter_eq_nil_of_all
        (tickStatsFx_all env st.lastTick now (backoffFxFor addr) (fun v => rfl) rfl),
      flatMap_filter_backoff env addr res results hnd hmem,
      filter_eq_nil_of_all
        (gmCountersFx_all results.length (cands results).length (backoffFxFor addr)
          (fun v => rfl) (fun v => rfl)),
      filter_eq_nil_of_all
        (selectAndDiscipline_all env _ results _ (backoffFxFor addr)
          (fun A Pm => rfl) rfl rfl rfl (fun o ts => rfl) (fun v => rfl)
          (fun v => rfl) rfl rfl rfl rfl)]
  rfl

theorem c3_witness :
    ((wResults.map Prod.fst).Nodup) ∧ (("peerB", wBackoffRR) ∈ wResults) ∧
    (((processResults wEnv initialState 50 wResults).2).filter (backoffFxFor "peerB") =
      [expectedBackoffOp "peerB" wBackoffRR]) :=
  ⟨by decide, by decide,
   c3_backoff_transitions wEnv initialState 50 wResults "peerB" wBackoffRR
     (by decide) (by decide)⟩

theorem filter_map_key_not_mem (g : String → RunResult) (addr : String) :
    ∀ t : List String, addr ∉ t →
      (t.map (fun a => (a, g a))).filter (fun pr => pr.1 == addr) = [] := by
  intro t
  induction t with
  | nil => intro _; rfl
  | cons x xs ih =>
    intro h
    simp only [List.mem_cons, not_or] at h
    have hx : (x == addr) = false := beq_eq_false_iff_ne.mpr (fun hxa => h.1 hxa.symm)
    rw [List.map_cons, List.filter_cons]
    simp only [hx, Bool.false_eq_true, if_false]
    exact ih h.2

theorem filter_map_key (g : String → RunResult) (addr : String) :
    ∀ l : List String, l.Nodup → addr ∈ l →
      ((l.map (fun a => (a, g a))).filter (fun pr => pr.1 == addr)) = [(addr, g addr)] := by
  intro l
  induction l with
  | nil => intro _ h; cases h
  | cons c t ih =>
    intro hnd hmem
    rw [List.nodup_cons] at hnd
    rw [List.map_cons, List.filter_cons]
    by_cases hc : c = addr
    · subst hc
      simp only [beq_self_eq_true, if_true]
      rw [filter_map_key_not_mem g c t hnd.1]
    · have hcb : (c == addr) = false := beq_eq_false_iff_ne.mpr hc
      simp only [hcb, Bool.false_eq_true, if_false]
      exact ih hnd.2 (List.mem_of_ne_of_mem (fun h => hc h.symm) hmem)

theorem cands_length_countP :
    ∀ l : List (String × RunResult), (cands l).length =
      l.countP (fun pr => pr.2.error.isNone && pr.2.measurement.isSome) := by
  intro l
  induction l with
  | nil => rfl
  | cons pr t ih =>
    rcases pr with ⟨a, res⟩
    simp only [cands] at ih ⊢
    rcases herr : res.error with _ | e <;> rcases hm : res.measurement with _ | m <;>
      simp [candOf, List.filterMap_cons, List.countP_cons, herr, hm, ih]

/-- **C9** (amended): the per-tick result map has one entry per configured
peer, suppressed peers included; the published total equals that count, and
the available percentage is the int64 truncation of the binary64 computation
`(float64(available)/float64(total))*100` (0 when the total is 0), where
`available` counts the error-free results carrying a measurement — the
float64 rounding can land one below the exact `100 * available / total`. -/
theorem c9_observability_counters (env : Env) (clients : List String)
    (active : String → Bool) (runOnce : String → Int → RunResult)
    (st : SPTPState) (now : Int) :
    (tickResults env clients active runOnce).length = clients.length ∧
    ∃ pre post,
      (tickOnce env clients active runOnce st now).2 =
        pre ++ Effect.setCounter "ptp.sptp.gms.total" (clients.length : Int) ::
          Effect.setCounter "ptp.sptp.gms.available_pct"
            (if clients.length ≠ 0 then
              goAvailablePct
                ((tickResults env clients active runOnce).countP
                  (fun pr => pr.2.error.isNone && pr.2.measurement.isSome))
                clients.length
             else 0) :: post := by
  have hlen : (tickResults env clients active runOnce).length = clients.length := by
    simp [tickResults]
  refine ⟨hlen, ?_⟩
  rw [tickOnce, processResults_eq]
  refine ⟨tickStatsFx env st.lastTick now ++
    (tickResults env clients active runOnce).flatMap (entryFx env),
    (selectAndDiscipline env { st with lastTick := some now }
      (tickResults env clients active runOnce)
      (aggregateResults env (tickResults env clients active runOnce)).1).2, ?_⟩
  rw [hlen, cands_length_countP]
  by_cases h : clients.length ≠ 0 <;> simp [gmCountersFx, h, List.append_assoc]

set_option maxRecDepth 10000 in
/-- At a tick with 50 peers of which 29 answered, exact arithmetic gives
`100 * 29 / 50 = 58`, but the trace publishes `available_pct = 57` and never
58: the float64 divide-then-truncate of the source lands one lower, refuting
the claim that the percentage equals 100 times available divided by total. -/
theorem c9_float_truncation_counterexample :
    cResults.length = 50 ∧
    cResults.countP (fun pr => pr.2.error.isNone && pr.2.measurement.isSome) = 29 ∧
    ((100 * 29) / 50 : Nat) = 58 ∧
    (processResults wEnvNone initialState 0 cResults).2.countP
        (fun e => e == Effect.setCounter "ptp.sptp.gms.available_pct" 57) = 1 ∧
    (processResults wEnvNone initialState 0 cResults).2.countP
        (fun e => e == Effect.setCounter "ptp.sptp.gms.available_pct" 58) = 0 := by
  decide

/-- **C4**: on each tick, a peer whose backoff is active contributes exactly
one synthesized result carrying the sentinel backoff error, independently of
the exchange oracle (no exchange runs, nothing reaches the network), while a
non-suppressed peer contributes exactly the outcome of one `RunOnce` exchange
invoked with the configured per-exchange timeout. -/
theorem c4_backoff_suppression (env : Env) (clients : List String)
    (active : String → Bool) (addr : String)
    (h1 : clients.Nodup) (h2 : addr ∈ clients) :
    (∀ runOnce : String → Int → RunResult, active addr = true →
      (tickResults env clients active runOnce).filter (fun pr => pr.1 == addr) =
        [(addr, backoffResult addr)]) ∧
    (∀ runOnce : String → Int → RunResult, active addr = false →
      (tickResults env clients active runOnce).filter (fun pr => pr.1 == addr) =
        [(addr, runOnce addr env.exchangeTimeout)]) := by
  constructor <;> intro runOnce hact <;>
    rw [tickResults, filter_map_key _ addr clients h1 h2] <;> simp [hact]

theorem c4_witness :
    ((["peerA", "peerB"] : List String).Nodup) ∧
    ("peerB" ∈ (["peerA", "peerB"] : List String)) ∧
    ((∀ runOnce : String → Int → RunResult, (fun a => a == "peerB") "peerB" = true →
      (tickResults wEnv ["peerA", "peerB"] (fun a => a == "peerB") runOnce).filter
          (fun pr => pr.1 == "peerB") =
        [("peerB", backoffResult "peerB")]) ∧
     (∀ runOnce : String → Int → RunResult, (fun a => a == "peerB") "peerB" = false →
      (tickResults wEnv ["peerA", "peerB"] (fun a => a == "peerB") runOnce).filter
          (fun pr => pr.1 == "peerB") =
        [("peerB", runOnce "peerB" wEnv.exchangeTimeout)])) :=
  ⟨by decide, by decide,
   c4_backoff_suppression wEnv ["peerA", "peerB"] (fun a => a == "peerB") "peerB"
     (by decide) (by decide)⟩

theorem shutdownFx_eq (env : Env) :
    shutdownFx env = Effect.clockAdjFreq (-env.meanFreq) ::
      (if (env.adjErr (-env.meanFreq)).isSome then [Effect.logError adjFailMsg]
       else []) := by
  rcases h : env.adjErr (-env.meanFreq) with _ | m <;> simp [shutdownFx, h]

theorem runLoop_cancel (env : Env) (clients : List String) (active : String → Bool)
    (runOnce : String → Int → RunResult) :
    ∀ (pre : List LoopEvent) (st : SPTPState) (post : List LoopEvent),
      LoopEvent.cancel ∉ pre →
      ∃ tickFx, runLoop env clients active runOnce st (pre ++ LoopEvent.cancel :: post) =
        (tickFx ++ shutdownFx env, RunOutcome.cancelled) := by
  intro pre
  induction pre with
  | nil =>
    intro st post _
    exact ⟨[], rfl⟩
  | cons ev t ih =>
    intro st post h
    simp only [List.mem_cons, not_or] at h
    cases ev with
    | cancel => exact absurd rfl h.1
    | timerFire now =>
      obtain ⟨tickFx, htick⟩ :=
        ih (tickOnce env clients active runOnce st now).1 post h.2
      refine ⟨Effect.armTimer env.interval ::
        ((tickOnce env clients active runOnce st now).2 ++ tickFx), ?_⟩
      rw [List.cons_append]
      simp only [runLoop]
      rw [htick]
      simp [List.append_assoc]

/-- **C7**: when a cancellation arrives, the loop performs the shutdown path —
a single frequency adjustment by the negated servo mean frequency (with a
failure merely logged) — and returns the cancellation as its terminal
outcome. -/
theorem c7_cancellation_shutdown (env : Env) (clients : List String)
    (active : String → Bool) (runOnce : String → Int → RunResult)
    (st : SPTPState) (pre post : List LoopEvent)
    (h : LoopEvent.cancel ∉ pre) :
    ∃ tickFx,
      runInternal env clients active runOnce st (pre ++ LoopEvent.cancel :: post) =
        (Effect.syncInterval env.interval :: Effect.armTimer 0 ::
          (tickFx ++ shutdownFx env), RunOutcome.cancelled) ∧
      (shutdownFx env).countP (fun e => e == Effect.clockAdjFreq (-env.meanFreq)) = 1 ∧
      shutdownFx env = Effect.clockAdjFreq (-env.meanFreq) ::
        (if (env.adjErr (-env.meanFreq)).isSome then [Effect.logError adjFailMsg]
         else []) := by
  obtain ⟨tickFx, htick⟩ := runLoop_cancel env clients active runOnce pre st post h
  refine ⟨tickFx, ?_, ?_, shutdownFx_eq env⟩
  · simp only [runInternal]
    rw [htick]
  · rw [shutdownFx_eq]
    rcases h2 : env.adjErr (-env.meanFreq) with _ | m <;>
      simp [h2, List.countP_cons]

theorem c7_witness :
    (LoopEvent.cancel ∉ [LoopEvent.timerFire 5]) ∧
    (∃ tickFx,
      runInternal wEnv ["peerA"] (fun _ => false) wRunOnce initialState
          ([LoopEvent.timerFire 5] ++ LoopEvent.cancel :: []) =
        (Effect.syncInterval wEnv.interval :: Effect.armTimer 0 ::
          (tickFx ++ shutdownFx wEnv), RunOutcome.cancelled) ∧
      (shutdownFx wEnv).countP (fun e => e == Effect.clockAdjFreq (-wEnv.meanFreq)) = 1 ∧
      shutdownFx wEnv = Effect.clockAdjFreq (-wEnv.meanFreq) ::
        (if (wEnv.adjErr (-wEnv.meanFreq)).isSome then [Effect.logError adjFailMsg]
         else [])) :=
  ⟨by decide,
   c7_cancellation_shutdown wEnv ["peerA"] (fun _ => false) wRunOnce initialState
     [LoopEvent.timerFire 5] [] (by decide)⟩

theorem armFires_append (a b : List Effect) :
    armFires (a ++ b) = armFires a ++ armFires b :=
  List.filterMap_append a b _

theorem armFires_cons_arm (d : Int) (l : List Effect) :
    armFires (Effect.armTimer d :: l) = d :: armFires l := rfl

theorem armFires_cons_of (e : Effect) (l : List Effect) (h : isArmFx e = false) :
    armFires (e :: l) = armFires l := by
  cases e <;> simp_all [armFires, List.filterMap_cons, isArmFx]

theorem armFires_all_nil {fx : List Effect} (h : ∀ e ∈ fx, isArmFx e = false) :
    armFires fx = [] := by
  induction fx with
  | nil => rfl
  | cons a t ih =>
    have ha := h a (List.mem_cons_self a t)
    have htail := ih (fun e he => h e (List.mem_cons_of_mem _ he))
    simp only [armFires, List.filterMap_cons] at htail ⊢
    cases a <;> simp_all [isArmFx]

theorem armFires_processResults (env : Env) (st : SPTPState) (now : Int)
    (results : List (String × RunResult)) :
    armFires (processResults env st now results).2 = [] := by
  apply armFires_all_nil
  rw [processResults_eq]
  intro e he
  simp only [List.append_assoc, List.mem_append] at he
  rcases he with h | h | h | h
  · exact tickStatsFx_all env st.lastTick now isArmFx (fun v => rfl) rfl e h
  · exact flatMap_entryFx_all env results isArmFx (fun a => rfl) (fun a => rfl)
      (fun a => rfl) (fun a => rfl) rfl rfl rfl e h
  · exact gmCountersFx_all _ _ isArmFx (fun v => rfl) (fun v => rfl) e h
  · exact selectAndDiscipline_all env _ results _ isArmFx (fun A Pm => rfl) rfl rfl rfl
      (fun o ts => rfl) (fun v => rfl) (fun v => rfl) rfl rfl rfl rfl e h

theorem armFires_shutdownFx (env : Env) : armFires (shutdownFx env) = [] := by
  rcases h : env.adjErr (-env.meanFreq) with _ | m <;>
    simp [shutdownFx, armFires, List.filterMap_cons, h]

theorem runLoop_armFires (env : Env) (clients : List String) (active : String → Bool)
    (runOnce : String → Int → RunResult) :
    ∀ (evts : List LoopEvent) (st : SPTPState),
      armFires (runLoop env clients active runOnce st evts).1 =
        List.replicate (firesBeforeCancel evts) env.interval := by
  intro evts
  induction evts with
  | nil => intro st; rfl
  | cons ev rest ih =>
    intro st
    cases ev with
    | cancel =>
      exact armFires_shutdownFx env
    | timerFire now =>
      simp only [runLoop]
      have h1 : armFires (tickOnce env clients active runOnce st now).2 = [] :=
        armFires_processResults env st now _
      rw [List.cons_append, armFires_cons_arm, armFires_append, h1, ih]
      simp [firesBeforeCancel, List.replicate_succ]

/-- **C10**: the loop's timer is created with a zero duration, so the first
tick fires immediately; every subsequent arming uses the configured interval;
and the first tick (run from the zero-valued state, whose `lastTick` is the
zero time) emits neither the tick-duration counter nor the tick-deviation
warning. -/
theorem c10_first_tick_immediate (env : Env) (clients : List String)
    (active : String → Bool) (runOnce : String → Int → RunResult)
    (now : Int) (rest : List LoopEvent) :
    armFires (runInternal env clients active runOnce initialState
        (LoopEvent.timerFire now :: rest)).1 =
      0 :: List.replicate (firesBeforeCancel (LoopEvent.timerFire now :: rest))
        env.interval ∧
    (∃ fxRest,
      (runInternal env clients active runOnce initialState
          (LoopEvent.timerFire now :: rest)).1 =
        Effect.syncInterval env.interval :: Effect.armTimer 0 ::
          Effect.armTimer env.interval ::
          ((tickOnce env clients active runOnce initialState now).2 ++ fxRest)) ∧
    ∀ e ∈ (tickOnce env clients active runOnce initialState now).2,
      isTickTimingFx e = false := by
  refine ⟨?_, ?_, ?_⟩
  · simp only [runInternal]
    rw [armFires_cons_of (Effect.syncInterval env.interval) _ rfl, armFires_cons_arm,
      runLoop_armFires]
  · exact ⟨(runLoop env clients active runOnce
      (tickOnce env clients active runOnce initialState now).1 rest).1, rfl⟩
  · intro e he
    rw [tickOnce, processResults_eq] at he
    simp only [initialState, tickStatsFx, List.nil_append, List.append_assoc,
      List.mem_append] at he
    rcases he with h | h | h
    · exact flatMap_entryFx_all env _ isTickTimingFx (fun a => rfl) (fun a => rfl)
        (fun a => rfl) (fun a => rfl) rfl rfl (by decide) e h
    · exact gmCountersFx_all _ _ isTickTimingFx (fun v => rfl) (fun v => rfl) e h
    · exact selectAndDiscipline_all env _ _ _ isTickTimingFx (fun A Pm => rfl)
        (by decide) rfl (by decide) (fun o ts => rfl) (fun v => rfl) (fun v => rfl)
        rfl rfl rfl rfl e h

theorem deliveredTo_append (addr : String) (a b : List Effect) :
    deliveredTo addr (a ++ b) = deliveredTo addr a ++ deliveredTo addr b :=
  List.filterMap_append a b _

theorem deliveredTo_general (clients : List String) (addr : String) :
    ∀ ds : List Datagram,
      deliveredTo addr (runGeneralListener clients ds) =
        if addr ∈ clients then
          (ds.filter (fun d => d.src == addr)).map
            (fun d => { data := d.payload, ts := none })
        else [] := by
  intro ds
  induction ds with
  | nil => by_cases h : addr ∈ clients <;> simp [runGeneralListener, deliveredTo, h]
  | cons d t ih =>
    have hstep : runGeneralListener clients (d :: t) =
        generalStep clients d ++ runGeneralListener clients t := rfl
    rw [hstep, deliveredTo_append, ih]
    by_cases hmem : addr ∈ clients
    · by_cases hsrc : d.src = addr
      · have hs : d.src ∈ clients := hsrc ▸ hmem
        simp [generalStep, deliveredTo, List.filterMap_cons, hs, hsrc, hmem,
          List.filter_cons]
      · by_cases hs : d.src ∈ clients <;>
          simp [generalStep, deliveredTo, List.filterMap_cons, hs, hsrc, hmem,
            List.filter_cons]
    · by_cases hs : d.src ∈ clients
      · have hsrc : d.src ≠ addr := fun h => hmem (h ▸ hs)
        simp [generalStep, deliveredTo, List.filterMap_cons, hs, hsrc, hmem]
      · simp [generalStep, deliveredTo, List.filterMap_cons, hs, hmem]

theorem deliveredTo_event (clients : List String) (addr : String) :
    ∀ eds : List (Datagram × Int),
      deliveredTo addr (runEventListener clients eds) =
        if addr ∈ clients then
          (eds.filter (fun p => p.1.src == addr)).map
            (fun p => { data := p.1.payload, ts := some p.2 })
        else [] := by
  intro eds
  induction eds with
  | nil => by_cases h : addr ∈ clients <;> simp [runEventListener, deliveredTo, h]
  | cons d t ih =>
    have hstep : runEventListener clients (d :: t) =
        eventStep clients d.1 d.2 ++ runEventListener clients t := rfl
    rw [hstep, deliveredTo_append, ih]
    by_cases hmem : addr ∈ clients
    · by_cases hsrc : d.1.src = addr
      · have hs : d.1.src ∈ clients := hsrc ▸ hmem
        simp [eventStep, deliveredTo, List.filterMap_cons, hs, hsrc, hmem,
          List.filter_cons]
      · by_cases hs : d.1.src ∈ clients <;>
          simp [eventStep, deliveredTo, List.filterMap_cons, hs, hsrc, hmem,
            List.filter_cons]
    · by_cases hs : d.1.src ∈ clients
      · have hsrc : d.1.src ≠ addr := fun h => hmem (h ▸ hs)
        simp [eventStep, deliveredTo, List.filterMap_cons, hs, hsrc, hmem]
      · simp [eventStep, deliveredTo, List.filterMap_cons, hs, hmem]

theorem warnCount_general (clients : List String) :
    ∀ ds : List Datagram,
      (runGeneralListener clients ds).countP
          (fun e => e == Effect.logWarn ignoringPacketsMsg) =
        ds.countP (fun d => decide (d.src ∉ clients)) := by
  intro ds
  induction ds with
  | nil => rfl
  | cons d t ih =>
    have hstep : runGeneralListener clients (d :: t) =
        generalStep clients d ++ runGeneralListener clients t := rfl
    rw [hstep, List.countP_append, ih, List.countP_cons]
    by_cases hs : d.src ∈ clients <;>
      simp [generalStep, List.countP_cons, hs, Nat.add_comm]

theorem warnCount_event (clients : List String) :
    ∀ eds : List (Datagram × Int),
      (runEventListener clients eds).countP
          (fun e => e == Effect.logWarn ignoringPacketsMsg) =
        eds.countP (fun p => decide (p.1.src ∉ clients)) := by
  intro eds
  induction eds with
  | nil => rfl
  | cons d t ih =>
    have hstep : runEventListener clients (d :: t) =
        eventStep clients d.1 d.2 ++ runEventListener clients t := rfl
    rw [hstep, List.countP_append, ih, List.countP_cons]
    by_cases hs : d.1.src ∈ clients <;>
      simp [eventStep, List.countP_cons, hs, Nat.add_comm]

/-- **C8**: each inbound datagram is matched to a session purely by its
(normalized) source IP: a peer's inbound queue receives exactly the datagrams
whose source equals that peer's configured address (with the receive
timestamp on the event port, without one on the general port); an
unconfigured address's queue receives nothing, each unmatched datagram
produces exactly one warning, and the listener keeps processing the rest of
the trace. -/
theorem c8_listener_demux (clients : List String) (addr : String)
    (ds : List Datagram) (eds : List (Datagram × Int)) :
    (deliveredTo addr (runGeneralListener clients ds) =
      if addr ∈ clients then
        (ds.filter (fun d => d.src == addr)).map
          (fun d => { data := d.payload, ts := none })
      else []) ∧
    (deliveredTo addr (runEventListener clients eds) =
      if addr ∈ clients then
        (eds.filter (fun p => p.1.src == addr)).map
          (fun p => { data := p.1.payload, ts := some p.2 })
      else []) ∧
    ((runGeneralListener clients ds).countP
        (fun e => e == Effect.logWarn ignoringPacketsMsg) =
      ds.countP (fun d => decide (d.src ∉ clients))) ∧
    ((runEventListener clients eds).countP
        (fun e => e == Effect.logWarn ignoringPacketsMsg) =
      eds.countP (fun p => decide (p.1.src ∉ clients))) :=
  ⟨deliveredTo_general clients addr ds, deliveredTo_event clients addr eds,
   warnCount_general clients ds, warnCount_event clients eds⟩

/-- **C6**: the servo-initialization tail of `SPTP.init` seeds the servo with
the negated clock frequency, but when `MaxFreqPPB` fails it never calls
`pi.SetMaxFreq` — the fallback `phc.DefaultMaxClockFreqPPB` value reaches only
the local variable that is logged, not the servo, contradicting the spec's
"falls back to a conservative default bound". -/
theorem c6_maxfreq_fallback_unapplied (f : Int) (e : GoErr) :
    initServo (Except.ok f) (Except.error e) =
      Except.ok ⟨-f, [], DefaultMaxClockFreqPPB⟩ := rfl

end SPTP
